import Mathlib

/-!
Verification development for the Amazon_Scrape repository (src/Output.py).

The Python source is shallowly embedded below:
* `convert_to_price` models `convert_to_price` (Output.py lines 9-30); its
  argument type `PyVal` distinguishes bytes values from non-bytes values,
  mirroring the `isinstance(byte_data, bytes)` check.
* `utf8Decode` models CPython's strict UTF-8 `bytes.decode('utf-8')`
  (returning `none` where Python raises `UnicodeDecodeError`), and
  `utf8Encode` models `str.encode('utf-8')`.
* `pySplit`, `pyStrip` model Python `str.split(sep)` (single-character
  separator) and `str.strip()` on lists of characters.
* `asinScan` models `re.search(r'/dp/([A-Z0-9]+)', url)`: the engine tries
  each start position left to right; a match needs the literal `/dp/`
  followed by at least one character of the class `[A-Z0-9]`, and the
  captured group is the maximal such run.
* `extractCore` models the pure part of `extract_product_details_and_info`
  (lines 48-66), i.e. the Page Extractor of the spec: everything after the
  HTTP response has been parsed into `soup`.  A `none` result models an
  exception reaching the `except` clause (IndexError from `url.split('/')[3]`
  when the URL has fewer than four slash-separated parts, or AttributeError
  when the found price element's `.string` is `None`).
* `extract_product_details_and_info` adds the fetch step, abstracted as an
  oracle `fetch : String → Option Soup` (`none` = any exception raised by
  `requests.get`/parsing); `rowFor` and `runBatch` model the per-URL loop of
  `main` (lines 130-132) that writes one CSV row per URL.
* `splitext`, `uniqueLoop`, `get_unique_output_file` model
  `os.path.splitext` (posixpath rules) and `get_unique_output_file`
  (lines 88-103); the `exists` test `os.path.exists` is an oracle and the
  unbounded `while` loop is given explicit fuel (`none` = non-termination).
* `readUrlsLoop` models `read_urls_from_csv` (lines 71-86) on an abstract
  CSV: a header row and a list of data rows; `csv.DictReader` skips empty
  rows, fills short rows with `None`, and `row['URL']` raises `KeyError`
  (modelled as `Except.error ()`) when the header lacks the column.
* `mainModel` models the control flow of `main` (lines 105-136):
  input-file check, output-name selection, URL reading, then the batch loop.
-/

/-- A Python value as far as `convert_to_price` can observe it: a `bytes`
object, a `str`, or anything else (e.g. `None`).  Mirrors the
`isinstance(byte_data, bytes)` test. -/
inductive PyVal where
  | bytes : List Nat → PyVal
  | str : String → PyVal
  | pyNone : PyVal
deriving DecidableEq

/-- `true` exactly on the `bytes` constructor. -/
def PyVal.isBytes : PyVal → Bool
  | PyVal.bytes _ => true
  | _ => false

/-- A UTF-8 continuation byte: `0x80`-`0xBF`. -/
def isCont (b : Nat) : Bool := (128 ≤ b) && (b < 192)

/-- Validity of the first continuation byte of a three-byte sequence,
given the lead byte (CPython strictness: overlong forms and surrogates
are rejected). -/
def cont3Ok (b b1 : Nat) : Bool :=
  if b = 224 then (160 ≤ b1) && (b1 ≤ 191)
  else if b = 237 then (128 ≤ b1) && (b1 ≤ 159)
  else isCont b1

/-- Validity of the first continuation byte of a four-byte sequence,
given the lead byte. -/
def cont4Ok (b b1 : Nat) : Bool :=
  if b = 240 then (144 ≤ b1) && (b1 ≤ 191)
  else if b = 244 then (128 ≤ b1) && (b1 ≤ 143)
  else isCont b1

/-- Strict UTF-8 decoding of a byte list, as CPython's
`bytes.decode('utf-8')`: `none` models `UnicodeDecodeError`. -/
def utf8Decode : List Nat → Option (List Char)
  | [] => some []
  | b :: rest =>
    if b < 128 then
      (utf8Decode rest).map (fun cs => Char.ofNat b :: cs)
    else if (194 ≤ b) && (b ≤ 223) then
      match rest with
      | b1 :: rest1 =>
        if isCont b1 then
          (utf8Decode rest1).map (fun cs =>
            Char.ofNat ((b - 192) * 64 + (b1 - 128)) :: cs)
        else none
      | [] => none
    else if (224 ≤ b) && (b ≤ 239) then
      match rest with
      | b1 :: b2 :: rest2 =>
        if cont3Ok b b1 && isCont b2 then
          (utf8Decode rest2).map (fun cs =>
            Char.ofNat ((b - 224) * 4096 + (b1 - 128) * 64 + (b2 - 128)) :: cs)
        else none
      | _ => none
    else if (240 ≤ b) && (b ≤ 244) then
      match rest with
      | b1 :: b2 :: b3 :: rest3 =>
        if cont4Ok b b1 && isCont b2 && isCont b3 then
          (utf8Decode rest3).map (fun cs =>
            Char.ofNat ((b - 240) * 262144 + (b1 - 128) * 4096
              + (b2 - 128) * 64 + (b3 - 128)) :: cs)
        else none
      | _ => none
    else none

/-- UTF-8 encoding of one character, as CPython's `str.encode('utf-8')`. -/
def encodeChar (c : Char) : List Nat :=
  let n := c.toNat
  if n < 128 then [n]
  else if n < 2048 then [192 + n / 64, 128 + n % 64]
  else if n < 65536 then [224 + n / 4096, 128 + (n / 64) % 64, 128 + n % 64]
  else [240 + n / 262144, 128 + (n / 4096) % 64, 128 + (n / 64) % 64, 128 + n % 64]

/-- UTF-8 encoding of a string. -/
def utf8Encode (s : String) : List Nat := s.data.flatMap encodeChar

/-- Python `str.split(sep)` for a one-character separator: splits on every
occurrence, keeping empty parts; the result is never the empty list. -/
def pySplit (sep : Char) : List Char → List (List Char)
  | [] => [[]]
  | c :: rest =>
    let r := pySplit sep rest
    if c = sep then [] :: r
    else
      match r with
      | h :: t => (c :: h) :: t
      | [] => [[c]]

/-- Python `str.strip()`: remove leading and trailing whitespace. -/
def pyStrip (l : List Char) : List Char :=
  ((l.dropWhile Char.isWhitespace).reverse.dropWhile Char.isWhitespace).reverse

/-- `convert_to_price` (Output.py lines 9-30).  For a `bytes` input, decode
as UTF-8 (decoding failure is caught and yields the sentinel), take the part
after the last colon (`text.split(":")[-1]`), strip whitespace, drop the
first character (`[1:]`) and remove all commas (`.replace(",", "")`).  Any
non-bytes input yields the sentinel `"Not Available"`.  Note that in Python
`split` always returns a non-empty list and slicing out of range returns an
empty string, so the `except IndexError` branch is unreachable. -/
def convert_to_price : PyVal → String
  | PyVal.bytes b =>
    match utf8Decode b with
    | some cs =>
      let pricePart := pyStrip ((pySplit ':' cs).getLastD [])
      String.mk ((pricePart.drop 1).filter (fun c => c != ','))
    | none => "Not Available"
  | _ => "Not Available"

/-- Modelled from the spec's words for claim C1: the regular expression
`^[0-9]+(\.[0-9]+)?$` — one or more digits, optionally followed by a dot and
one or more digits. -/
def isDigitCh (c : Char) : Bool := ('0' ≤ c) && (c ≤ '9')

/-- Modelled from the spec's words for claim C1: whether a string matches
`^[0-9]+(\.[0-9]+)?$`. -/
def matchesPriceRe (s : String) : Bool :=
  let l := s.data
  let d1 := l.takeWhile isDigitCh
  let r := l.dropWhile isDigitCh
  (!d1.isEmpty) &&
    (r.isEmpty ||
      (match r with
       | '.' :: t => (!t.isEmpty) && t.all isDigitCh
       | _ => false))

/-- A markup element as the extractor observes it in BeautifulSoup: its
`.string` attribute (which is `None` when the tag does not have exactly one
string child — accessing `.strip()` on it then raises AttributeError) and
its `.text` attribute (always a string). -/
structure MElem where
  str? : Option String
  text : String
deriving DecidableEq

/-- Parsed markup, abstracted to what the extractor queries of it:
`soup.find('span', {'class': c})` — the first span element of a given class
string, or `none` when absent. -/
def Soup : Type := String → Option MElem

/-- Class string of the visually-hidden original-price element. -/
def priceClass : String := "a-size-small aok-offscreen"

/-- Class string of the whole-number discounted-price element. -/
def wholeClass : String := "a-price-whole"

/-- Class string of the icon-alt rating element. -/
def ratingClass : String := "a-icon-alt"

/-- Markup with none of the recognized elements. -/
def emptySoup : Soup := fun _ => none

/-- Uppercase alphanumeric: the character class `[A-Z0-9]` of the ASIN
regular expression in Output.py line 48. -/
def isUpAl (c : Char) : Bool := (('A' ≤ c) && (c ≤ 'Z')) || (('0' ≤ c) && (c ≤ '9'))

/-- Whether the regular expression `/dp/([A-Z0-9]+)` matches at the start of
the given character list. -/
def headMatch (l : List Char) : Bool :=
  match l with
  | a :: b :: c :: d :: e :: _ =>
    (a == '/') && (b == 'd') && (c == 'p') && (d == '/') && isUpAl e
  | _ => false

/-- `re.search(r'/dp/([A-Z0-9]+)', ...)` over a character list: try each
start position left to right; on the first position where the pattern
matches, the captured group is the maximal run of `[A-Z0-9]` after `/dp/`. -/
def asinScan : List Char → Option (List Char)
  | [] => none
  | x :: rest =>
    if headMatch (x :: rest) then some (((x :: rest).drop 4).takeWhile isUpAl)
    else asinScan rest

/-- The ASIN extracted from a URL (Output.py lines 48-52): the captured
group of `re.search(r'/dp/([A-Z0-9]+)', url)`, or `None` when no match. -/
def asinOf (url : String) : Option String := (asinScan url.data).map String.mk

/-- One row of extracted product data, as returned on the success path of
`extract_product_details_and_info` (Output.py line 66). -/
structure Record where
  productName : String
  asin : Option String
  originalPrice : String
  discountedPrice : String
  rating : String
deriving DecidableEq

/-- The Page Extractor: the pure part of `extract_product_details_and_info`
(Output.py lines 48-66), a function of the parsed markup and the URL.
`none` models an exception reaching the `except` clause: IndexError from
`url.split('/')[3]` when the URL has fewer than four slash-separated parts,
or AttributeError when the found original-price element's `.string` is
`None`.  On success: the product name is the fourth slash-delimited URL
segment with hyphens replaced by spaces; the original price is the
element's stripped `.string` encoded as UTF-8 bytes and fed through
`convert_to_price` (with the literal string `'Not Available'` fed through
instead when the element is absent); discounted price and rating are the
stripped `.text` of their elements, or `'Not Available'` when absent. -/
def extractCore (soup : Soup) (url : String) : Option Record :=
  let asin := asinOf url
  match (pySplit '/' url.data).get? 3 with
  | none => none
  | some seg =>
    let productName := String.mk (seg.map (fun c => if c = '-' then ' ' else c))
    let op? : Option String :=
      match soup priceClass with
      | some e =>
        match e.str? with
        | none => none
        | some s =>
          some (convert_to_price (PyVal.bytes (utf8Encode (String.mk (pyStrip s.data)))))
      | none => some (convert_to_price (PyVal.str "Not Available"))
    match op? with
    | none => none
    | some op =>
      let dp :=
        match soup wholeClass with
        | some e => String.mk (pyStrip e.text.data)
        | none => "Not Available"
      let rt :=
        match soup ratingClass with
        | some e => String.mk (pyStrip e.text.data)
        | none => "Not Available"
      some ⟨productName, asin, op, dp, rt⟩

/-- `extract_product_details_and_info` (Output.py lines 32-69) with the
fetch abstracted as an oracle `fetch : String → Option Soup` (`none` models
any exception raised by `requests.get` or response handling).  The URL may
itself be `None` (a short CSV row), in which case `requests.get(None)`
raises.  `none` models the all-`None` tuple returned by the `except`
branch (line 69). -/
def extract_product_details_and_info (fetch : String → Option Soup) :
    Option String → Option Record
  | none => none
  | some url =>
    match fetch url with
    | none => none
    | some soup => extractCore soup url

/-- One CSV row written by the loop of `main` (Output.py line 132):
the URL cell followed by the five extracted fields, each of which is a
string or Python `None` (rendered as an empty cell by `csv.writer`). -/
structure OutRow where
  url : Option String
  productName : Option String
  asin : Option String
  originalPrice : Option String
  discountedPrice : Option String
  rating : Option String
deriving DecidableEq

/-- The body of the per-URL loop of `main` (Output.py lines 130-132):
extract, then write one row `[url, name, asin, original, discounted,
rating]`. -/
def rowFor (fetch : String → Option Soup) (u : Option String) : OutRow :=
  match extract_product_details_and_info fetch u with
  | none => ⟨u, none, none, none, none, none⟩
  | some r =>
    ⟨u, some r.productName, r.asin, some r.originalPrice,
      some r.discountedPrice, some r.rating⟩

/-- The Batch Driver: the whole per-URL loop of `main` (Output.py lines
130-132), producing the list of written rows in order. -/
def runBatch (fetch : String → Option Soup) (urls : List (Option String)) : List OutRow :=
  urls.map (rowFor fetch)

/-- Index of the last occurrence of `k` in a list, or `none`.  Used for
`os.path.splitext` (last `/` and last `.`) and for `csv.DictReader`'s
column lookup (`dict(zip(...))` keeps the last occurrence of a duplicated
field name). -/
def lastIdx {α : Type} [DecidableEq α] (k : α) : List α → Option Nat
  | [] => none
  | x :: xs =>
    match lastIdx k xs with
    | some i => some (i + 1)
    | none => if x = k then some 0 else none

/-- `os.path.splitext` (posixpath rules): split at the last dot, provided it
lies after the last `/` and the basename does not consist of leading dots
only up to it. -/
def splitext (p : String) : String × String :=
  let l := p.data
  let sepBase : Nat :=
    match lastIdx '/' l with
    | some i => i + 1
    | none => 0
  match lastIdx '.' l with
  | none => (p, "")
  | some d =>
    if (sepBase ≤ d) && (((l.drop sepBase).take (d - sepBase)).any (fun c => c != '.')) then
      (String.mk (l.take d), String.mk (l.drop d))
    else (p, "")

/-- The `while` loop of `get_unique_output_file` (Output.py lines 100-102):
while the current name exists, replace it by `base_name + "_" + count + ext`
and increment `count`.  The loop is given explicit fuel; `none` models
non-termination (every candidate name exists). -/
def uniqueLoop (ex : String → Bool) (base ext : String) :
    Nat → Nat → String → Option String
  | 0, _, cur => if ex cur then none else some cur
  | f + 1, count, cur =>
    if ex cur then uniqueLoop ex base ext f (count + 1) (base ++ "_" ++ toString count ++ ext)
    else some cur

/-- `get_unique_output_file` (Output.py lines 88-103), with `os.path.exists`
abstracted as the oracle `ex`.  The base name and extension are computed
once from the requested name; the counter starts at 1. -/
def get_unique_output_file (ex : String → Bool) (fuel : Nat) (file : String) :
    Option String :=
  let p := splitext file
  uniqueLoop ex p.1 p.2 fuel 1 file

/-- `read_urls_from_csv` (Output.py lines 81-86) over an abstract CSV body:
`csv.DictReader` skips empty rows; for each remaining row, `row['URL']`
raises `KeyError` (`Except.error ()`) when the header has no `URL` column,
and otherwise yields the cell at the column's index (`none` — Python `None`,
the `restval` — when the row is shorter). -/
def readUrlsLoop (header : List String) : List (List String) → Except Unit (List (Option String))
  | [] => Except.ok []
  | row :: rest =>
    if row.isEmpty then readUrlsLoop header rest
    else
      match lastIdx "URL" header with
      | none => Except.error ()
      | some i =>
        match readUrlsLoop header rest with
        | Except.error e => Except.error e
        | Except.ok tl => Except.ok (row.get? i :: tl)

/-- Observable outcome of one run of `main` (Output.py lines 105-136):
either the input-file check fails (error printed, no output file opened),
or an exception during `read_urls_from_csv` reaches the outer `except`
(error printed, no output file opened), or the batch runs to completion
and the named output file holds the header plus the given rows. -/
inductive MainResult where
  | inputMissing : MainResult
  | readError : MainResult
  | success : String → List OutRow → MainResult
deriving DecidableEq

/-- `main` (Output.py lines 105-136).  The environment is abstracted:
`isfile` is the `os.path.isfile` check on the entered input path; the input
CSV is a header row (`none` for an empty file, in which case `DictReader`
yields no rows) plus data rows; `outEx` is `os.path.exists`; `overwrite` is
whether the operator answers `y` to the overwrite prompt; `fuel` bounds the
`get_unique_output_file` loop; `fetch` is the network oracle.  The overall
`none` models non-termination of the filename loop. -/
def mainModel (isfile : Bool) (header : Option (List String))
    (rows : List (List String)) (outEx : String → Bool) (overwrite : Bool)
    (fuel : Nat) (fetch : String → Option Soup) : Option MainResult :=
  if isfile then
    let outName? : Option String :=
      if outEx "output_details.csv" then
        if overwrite then some "output_details.csv"
        else get_unique_output_file outEx fuel "output_details.csv"
      else some "output_details.csv"
    match outName? with
    | none => none
    | some outName =>
      let urls? : Except Unit (List (Option String)) :=
        match header with
        | none => Except.ok []
        | some h => readUrlsLoop h rows
      match urls? with
      | Except.error _ => some MainResult.readError
      | Except.ok urls => some (MainResult.success outName (runBatch fetch urls))
  else some MainResult.inputMissing

/-- Modelled from the spec's words for claim C5: alphanumeric characters
`[A-Za-z0-9]`. -/
def specAlnum (c : Char) : Bool :=
  (('A' ≤ c) && (c ≤ 'Z')) || (('a' ≤ c) && (c ≤ 'z')) || (('0' ≤ c) && (c ≤ '9'))

/-- Modelled from the spec's words for claim C5: the URL contains a path
segment of the form `/dp/<alphanumeric-run>`, i.e. among the slash-delimited
segments of the URL a segment `dp` is immediately followed by the segment
`run`, which is a non-empty run of alphanumeric characters. -/
def specHasDpRunB (url run : String) : Bool :=
  let segs := pySplit '/' url.data
  (!run.data.isEmpty) && run.data.all specAlnum &&
    (segs.zip segs.tail).any (fun p => (p.1 == ['d', 'p']) && (p.2 == run.data))

/-! ## Helper lemmas -/

/-- The URL cell of a written row is always the input URL. -/
theorem rowFor_url (fetch : String → Option Soup) (u : Option String) :
    (rowFor fetch u).url = u := by
  cases h : extract_product_details_and_info fetch u <;> simp [rowFor, h]

/-- Splitting on a separator that does not occur returns the whole string as
the single part. -/
theorem pySplit_no_sep (sep : Char) (l : List Char)
    (h : l.all (fun c => c != sep) = true) : pySplit sep l = [l] := by
  induction l with
  | nil => rfl
  | cons c rest ih =>
    rw [List.all_cons, Bool.and_eq_true] at h
    have hne : c ≠ sep := by simpa using h.1
    simp [pySplit, ih h.2, hne]

/-! ## Claims -/

/-- C1, counterexample: the Price Normalizer's output is not always the
sentinel or a digit string — the bytes of `"ab"` (no colon, no digits)
normalize to `"b"`, which is neither. -/
theorem C1_counterexample :
    convert_to_price (PyVal.bytes [97, 98]) = "b" ∧
    ¬(convert_to_price (PyVal.bytes [97, 98]) = "Not Available" ∨
      matchesPriceRe (convert_to_price (PyVal.bytes [97, 98])) = true) := by decide

/-- C1, amended: for every input, `convert_to_price` returns either the
sentinel `"Not Available"` or a string containing no comma
(thousands-separator) characters — though not necessarily one matching
`^[0-9]+(\.[0-9]+)?$` — and the raw bytes of `"Price: $1,249.50"` normalize
to `"1249.50"`. -/
theorem C1_no_separators_and_example :
    (∀ v : PyVal, convert_to_price v = "Not Available" ∨
      (convert_to_price v).data.all (fun c => c != ',') = true) ∧
    convert_to_price (PyVal.bytes (utf8Encode "Price: $1,249.50")) = "1249.50" := by
  constructor
  · intro v
    match v with
    | PyVal.str s => exact Or.inl rfl
    | PyVal.pyNone => exact Or.inl rfl
    | PyVal.bytes b =>
      cases h : utf8Decode b with
      | none => exact Or.inl (by simp [convert_to_price, h])
      | some cs =>
        refine Or.inr ?_
        simp only [convert_to_price, h]
        rw [List.all_eq_true]
        intro c hc
        exact (List.mem_filter.mp hc).2
  · decide

/-- C2, counterexample: for the bytes of `"Hello"`, whose decoding contains
no colon, the Price Normalizer does not return the sentinel: `split(":")` on
a colon-free string returns the whole string as its only (hence last) part,
slicing never raises `IndexError`, and the result is `"ello"`. -/
theorem C2_counterexample :
    utf8Decode [72, 101, 108, 108, 111] = some ['H', 'e', 'l', 'l', 'o'] ∧
    (['H', 'e', 'l', 'l', 'o'].all (fun c => c != ':')) = true ∧
    convert_to_price (PyVal.bytes [72, 101, 108, 108, 111]) = "ello" ∧
    convert_to_price (PyVal.bytes [72, 101, 108, 108, 111]) ≠ "Not Available" := by
  decide

/-- C2, amended: the Price Normalizer never raises (it is a total function;
only decoding failure is caught and mapped to the sentinel), but the claimed
sentinel cases do not hold: when the decoding contains no colon the result is
the trimmed decoded text with its first character dropped and commas removed,
and when the trailing segment after the last colon is empty after trimming
the result is the empty string — not the sentinel. -/
theorem C2_no_colon_and_empty_segment :
    (∀ (b : List Nat) (cs : List Char), utf8Decode b = some cs →
      cs.all (fun c => c != ':') = true →
      convert_to_price (PyVal.bytes b) =
        String.mk (((pyStrip cs).drop 1).filter (fun c => c != ','))) ∧
    (∀ (b : List Nat) (cs : List Char), utf8Decode b = some cs →
      pyStrip ((pySplit ':' cs).getLastD []) = [] →
      convert_to_price (PyVal.bytes b) = "") ∧
    (∀ b : List Nat, utf8Decode b = none →
      convert_to_price (PyVal.bytes b) = "Not Available") := by
  refine ⟨?_, ?_, ?_⟩
  · intro b cs hdec hcolon
    simp [convert_to_price, hdec, pySplit_no_sep ':' cs hcolon]
  · intro b cs hdec hempty
    simp only [convert_to_price, hdec, hempty]
    rfl
  · intro b hdec
    simp [convert_to_price, hdec]

/-- C2 amended, witness: concrete applications — bytes `"Hello"` (no colon)
give `"ello"`, bytes `"a:"` (empty trailing segment) give `""`, and the
invalid byte `0xFF` gives the sentinel. -/
theorem C2_no_colon_and_empty_segment_witness :
    convert_to_price (PyVal.bytes [72, 101, 108, 108, 111]) =
      String.mk (((pyStrip ['H', 'e', 'l', 'l', 'o']).drop 1).filter (fun c => c != ',')) ∧
    convert_to_price (PyVal.bytes [97, 58]) = "" ∧
    convert_to_price (PyVal.bytes [255]) = "Not Available" :=
  ⟨C2_no_colon_and_empty_segment.1 [72, 101, 108, 108, 111] ['H', 'e', 'l', 'l', 'o']
      (by decide) (by decide),
   C2_no_colon_and_empty_segment.2.1 [97, 58] ['a', ':'] (by decide) (by decide),
   C2_no_colon_and_empty_segment.2.2 [255] (by decide)⟩

/-- C3: the Batch Driver writes exactly one row per input URL, in input
order — the row list has the same length as the URL list and its URL cells
are exactly the input URLs in order, regardless of the fetch oracle. -/
theorem C3_one_row_per_url (fetch : String → Option Soup) (urls : List (Option String)) :
    (runBatch fetch urls).length = urls.length ∧
    (runBatch fetch urls).map OutRow.url = urls := by
  refine ⟨by simp [runBatch], ?_⟩
  rw [runBatch, List.map_map]
  have h : (OutRow.url ∘ rowFor fetch) = id := funext fun u => rowFor_url fetch u
  rw [h, List.map_id]

/-- C4, counterexample: when the fetch of URL `"u"` fails, the emitted row
preserves the URL but every other field is Python `None` (rendered as an
empty cell) — not the sentinel `"Not Available"`. -/
theorem C4_counterexample :
    rowFor (fun _ => none) (some "u") = ⟨some "u", none, none, none, none, none⟩ ∧
    (rowFor (fun _ => none) (some "u")).originalPrice ≠ some "Not Available" ∧
    (rowFor (fun _ => none) (some "u")).productName = none := by decide

/-- C4, amended: every emitted record preserves the source URL; when the
fetch or extraction fails every other field is `None` (absent, rendered as
an empty cell) rather than the sentinel, and otherwise the record carries
the extracted fields (sentinel-valued where markup elements were missing,
with `catalogId` possibly absent). -/
theorem C4_url_preserved_fields_populated (fetch : String → Option Soup) (u : String) :
    (rowFor fetch (some u)).url = some u ∧
    (rowFor fetch (some u) = ⟨some u, none, none, none, none, none⟩ ∨
      ∃ r : Record, extract_product_details_and_info fetch (some u) = some r ∧
        rowFor fetch (some u) =
          ⟨some u, some r.productName, r.asin, some r.originalPrice,
            some r.discountedPrice, some r.rating⟩) := by
  refine ⟨rowFor_url fetch (some u), ?_⟩
  cases h : extract_product_details_and_info fetch (some u) with
  | none => exact Or.inl (by simp [rowFor, h])
  | some r => exact Or.inr ⟨r, rfl, by simp [rowFor, h]⟩

/-- C9: the Page Extractor is deterministic — a pure function of the parsed
markup and the URL: equal inputs give equal records. -/
theorem C9_extractor_deterministic (s1 s2 : Soup) (u1 u2 : String)
    (hs : s1 = s2) (hu : u1 = u2) : extractCore s1 u1 = extractCore s2 u2 := by
  rw [hs, hu]

/-- C9, witness: determinism applied at concrete markup and URL. -/
theorem C9_extractor_deterministic_witness :
    extractCore emptySoup "x/dp/AB" = extractCore emptySoup "x/dp/AB" :=
  C9_extractor_deterministic emptySoup emptySoup "x/dp/AB" "x/dp/AB" rfl rfl

/-- C10: every non-bytes input to the Price Normalizer (in particular the
literal string `'Not Available'`) yields the sentinel, and this is why an
absent visually-hidden price element yields `originalPrice =
"Not Available"`: the extractor feeds the placeholder string itself through
the normalizer. -/
theorem C10_nonbytes_sentinel :
    (∀ v : PyVal, v.isBytes = false → convert_to_price v = "Not Available") ∧
    (∀ (soup : Soup) (url : String) (r : Record), soup priceClass = none →
      extractCore soup url = some r → r.originalPrice = "Not Available") := by
  constructor
  · intro v hv
    match v with
    | PyVal.bytes b => simp [PyVal.isBytes] at hv
    | PyVal.str s => rfl
    | PyVal.pyNone => rfl
  · intro soup url r hfind hex
    simp only [extractCore, hfind] at hex
    cases hseg : (pySplit '/' url.data).get? 3 with
    | none => rw [hseg] at hex; simp at hex
    | some seg =>
      rw [hseg] at hex
      simp only [Option.some.injEq] at hex
      rw [← hex]
      rfl

/-- C10, witness: the normalizer applied to the literal placeholder string,
and the original-price field of a record extracted from markup lacking the
price element. -/
theorem C10_nonbytes_sentinel_witness :
    convert_to_price (PyVal.str "Not Available") = "Not Available" ∧
    Record.originalPrice
        ⟨"d", none, "Not Available", "Not Available", "Not Available"⟩ =
      "Not Available" :=
  ⟨C10_nonbytes_sentinel.1 (PyVal.str "Not Available") rfl,
   C10_nonbytes_sentinel.2 emptySoup "a/b/c/d"
      ⟨"d", none, "Not Available", "Not Available", "Not Available"⟩ rfl (by decide)⟩

/-- C6: for the URL `https://site.example/wireless-mouse/dp/B0ABCXYZ12` and
any markup lacking the visually-hidden price element, the whole-number price
element and the icon-alt rating element, the Page Extractor yields
`productName = "wireless mouse"` (4th slash-delimited segment, hyphens to
spaces), `catalogId = "B0ABCXYZ12"`, and the three remaining fields equal to
`"Not Available"`. -/
theorem C6_concrete_extraction (soup : Soup)
    (h1 : soup priceClass = none) (h2 : soup wholeClass = none)
    (h3 : soup ratingClass = none) :
    extractCore soup "https://site.example/wireless-mouse/dp/B0ABCXYZ12" =
      some ⟨"wireless mouse", some "B0ABCXYZ12", "Not Available",
        "Not Available", "Not Available"⟩ := by
  simp only [extractCore, h1, h2, h3]
  decide

/-- C6, witness: the theorem applied to markup with no elements at all. -/
theorem C6_concrete_extraction_witness :
    extractCore emptySoup "https://site.example/wireless-mouse/dp/B0ABCXYZ12" =
      some ⟨"wireless mouse", some "B0ABCXYZ12", "Not Available",
        "Not Available", "Not Available"⟩ :=
  C6_concrete_extraction emptySoup rfl rfl rfl

/-- Any name returned by the filename loop does not exist according to the
`os.path.exists` oracle. -/
theorem uniqueLoop_result_free (ex : String → Bool) (base ext : String) (fuel : Nat) :
    ∀ (count : Nat) (cur r : String),
      uniqueLoop ex base ext fuel count cur = some r → ex r = false := by
  induction fuel with
  | zero =>
    intro count cur r h
    rw [uniqueLoop] at h
    cases hc : ex cur with
    | true => rw [hc] at h; simp at h
    | false =>
      rw [hc] at h
      simp only [Bool.false_eq_true, if_false, Option.some.injEq] at h
      rw [← h]; exact hc
  | succ f ih =>
    intro count cur r h
    rw [uniqueLoop] at h
    cases hc : ex cur with
    | true =>
      rw [hc] at h
      simp only [if_true] at h
      exact ih _ _ _ h
    | false =>
      rw [hc] at h
      simp only [Bool.false_eq_true, if_false, Option.some.injEq] at h
      rw [← h]; exact hc

/-- Any name returned by the filename loop is the starting name or carries a
numeric suffix between the base name and the extension. -/
theorem uniqueLoop_result_shape (ex : String → Bool) (base ext : String) (fuel : Nat) :
    ∀ (count : Nat) (cur r : String),
      uniqueLoop ex base ext fuel count cur = some r →
      r = cur ∨ ∃ k : Nat, r = base ++ "_" ++ toString k ++ ext := by
  induction fuel with
  | zero =>
    intro count cur r h
    rw [uniqueLoop] at h
    cases hc : ex cur with
    | true => rw [hc] at h; simp at h
    | false =>
      rw [hc] at h
      simp only [Bool.false_eq_true, if_false, Option.some.injEq] at h
      exact Or.inl h.symm
  | succ f ih =>
    intro count cur r h
    rw [uniqueLoop] at h
    cases hc : ex cur with
    | true =>
      rw [hc] at h
      simp only [if_true] at h
      rcases ih _ _ _ h with h1 | ⟨k, hk⟩
      · exact Or.inr ⟨count, h1⟩
      · exact Or.inr ⟨k, hk⟩
    | false =>
      rw [hc] at h
      simp only [Bool.false_eq_true, if_false, Option.some.injEq] at h
      exact Or.inl h.symm

/-- C7: `get_unique_output_file` returns the requested name unchanged when
it does not exist; any returned name does not exist; any returned name is
the requested name or the base name with a numeric suffix before the
extension; and when `output.csv` and `output_1.csv` exist but `output_2.csv`
does not, the resolved name is `output_2.csv`. -/
theorem C7_unique_output_file :
    (∀ (ex : String → Bool) (fuel : Nat) (file : String), ex file = false →
      get_unique_output_file ex fuel file = some file) ∧
    (∀ (ex : String → Bool) (fuel : Nat) (file r : String),
      get_unique_output_file ex fuel file = some r → ex r = false) ∧
    (∀ (ex : String → Bool) (fuel : Nat) (file r : String),
      get_unique_output_file ex fuel file = some r →
        r = file ∨ ∃ k : Nat,
          r = (splitext file).1 ++ "_" ++ toString k ++ (splitext file).2) ∧
    get_unique_output_file (fun s => (s == "output.csv") || (s == "output_1.csv")) 5
      "output.csv" = some "output_2.csv" := by
  refine ⟨?_, ?_, ?_, by decide⟩
  · intro ex fuel file h
    cases fuel <;> simp [get_unique_output_file, uniqueLoop, h]
  · intro ex fuel file r h
    exact uniqueLoop_result_free ex (splitext file).1 (splitext file).2 fuel 1 file r h
  · intro ex fuel file r h
    exact uniqueLoop_result_shape ex (splitext file).1 (splitext file).2 fuel 1 file r h

/-- C7, witness: with no existing files, `a.csv` resolves to itself, and the
resolved name indeed does not exist. -/
theorem C7_unique_output_file_witness :
    get_unique_output_file (fun _ => false) 0 "a.csv" = some "a.csv" ∧
    ((fun _ => false : String → Bool)) "a.csv" = false :=
  ⟨C7_unique_output_file.1 (fun _ => false) 0 "a.csv" rfl,
   C7_unique_output_file.2.1 (fun _ => false) 0 "a.csv" "a.csv"
     (C7_unique_output_file.1 (fun _ => false) 0 "a.csv" rfl)⟩

/-- A key absent from the header has no column index. -/
theorem lastIdx_eq_none {α : Type} [DecidableEq α] (k : α) (l : List α)
    (h : k ∉ l) : lastIdx k l = none := by
  induction l with
  | nil => rfl
  | cons x xs ih =>
    have h1 : k ≠ x := fun e => h (by simp [e])
    have h2 : k ∉ xs := fun m => h (List.mem_cons_of_mem _ m)
    simp only [lastIdx, ih h2]
    rw [if_neg (Ne.symm h1)]

/-- When the header lacks the `URL` column and at least one data row is
non-empty, reading the URLs raises `KeyError`. -/
theorem readUrlsLoop_error (header : List String) (rows : List (List String))
    (hcol : "URL" ∉ header) (hrow : rows.any (fun row => !row.isEmpty) = true) :
    readUrlsLoop header rows = Except.error () := by
  induction rows with
  | nil => simp at hrow
  | cons row rest ih =>
    rw [List.any_cons, Bool.or_eq_true] at hrow
    cases he : row.isEmpty with
    | true =>
      have h2 : rest.any (fun r => !r.isEmpty) = true := by
        rcases hrow with h1 | h1
        · rw [he] at h1; exact absurd h1 (by decide)
        · exact h1
      simpa [readUrlsLoop, he] using ih h2
    | false =>
      simp [readUrlsLoop, he, lastIdx_eq_none "URL" header hcol]

/-- C8, counterexample: an input file whose header lacks the `URL` column
but which has no data rows does NOT fail the run — `DictReader` yields no
rows, so `row['URL']` is never evaluated, and a (header-only) output file is
produced. -/
theorem C8_counterexample :
    (("URL" ∈ ["Name"]) = False) ∧
    mainModel true (some ["Name"]) [] (fun _ => false) false 0 (fun _ => none) =
      some (MainResult.success "output_details.csv" []) := by
  constructor
  · simp
  · decide

/-- C8, amended: a missing input file fails the run before any output is
written, and a header lacking the `URL` column fails the run before the
output file is opened provided at least one (non-empty) data row exists;
with zero data rows the missing column goes undetected and a header-only
output file is produced. -/
theorem C8_input_failures (header : List String) (rows : List (List String))
    (outEx : String → Bool) (ow : Bool) (fuel : Nat) (fetch : String → Option Soup) :
    mainModel false (some header) rows outEx ow fuel fetch = some MainResult.inputMissing ∧
    ("URL" ∉ header → rows.any (fun row => !row.isEmpty) = true →
      outEx "output_details.csv" = false →
      mainModel true (some header) rows outEx ow fuel fetch = some MainResult.readError) := by
  refine ⟨rfl, ?_⟩
  intro hcol hrow hout
  simp [mainModel, hout, readUrlsLoop_error header rows hcol hrow]

/-- C8 amended, witness: the theorem applied to a concrete environment —
missing input file on one hand, a `Name`-only header with one data row on
the other. -/
theorem C8_input_failures_witness :
    mainModel false (some ["Name"]) [["u"]] (fun _ => false) false 0 (fun _ => none) =
      some MainResult.inputMissing ∧
    mainModel true (some ["Name"]) [["u"]] (fun _ => false) false 0 (fun _ => none) =
      some MainResult.readError :=
  ⟨(C8_input_failures ["Name"] [["u"]] (fun _ => false) false 0 (fun _ => none)).1,
   (C8_input_failures ["Name"] [["u"]] (fun _ => false) false 0 (fun _ => none)).2
     (by decide) (by decide) rfl⟩

/-- The pattern `/dp/([A-Z0-9]+)` matches at the head of a character list
exactly when the list starts with `/dp/` followed by an uppercase
alphanumeric character. -/
theorem headMatch_iff (l : List Char) :
    headMatch l = true ↔
      ∃ c t, l = '/' :: 'd' :: 'p' :: '/' :: c :: t ∧ isUpAl c = true := by
  cases l with
  | nil => simp [headMatch]
  | cons a l1 =>
    cases l1 with
    | nil => simp [headMatch]
    | cons b l2 =>
      cases l2 with
      | nil => simp [headMatch]
      | cons c l3 =>
        cases l3 with
        | nil => simp [headMatch]
        | cons d l4 =>
          cases l4 with
          | nil => simp [headMatch]
          | cons e l5 =>
            constructor
            · intro h
              simp only [headMatch, Bool.and_eq_true, beq_iff_eq] at h
              obtain ⟨⟨⟨⟨ha, hb⟩, hc⟩, hd⟩, he⟩ := h
              subst ha; subst hb; subst hc; subst hd
              exact ⟨e, l5, rfl, he⟩
            · rintro ⟨c0, t, heq, hc0⟩
              simp only [List.cons.injEq] at heq
              obtain ⟨ha, hb, hc, hd, he, ht⟩ := heq
              subst ha; subst hb; subst hc; subst hd; subst he; subst ht
              simp [headMatch, hc0]

/-- Soundness of the ASIN scanner: a successful scan returns a non-empty
uppercase-alphanumeric run that occurs in the scanned text immediately after
an occurrence of `/dp/`. -/
theorem asinScan_eq_some (l r : List Char) (h : asinScan l = some r) :
    r ≠ [] ∧ r.all isUpAl = true ∧
      ∃ a b, l = a ++ '/' :: 'd' :: 'p' :: '/' :: (r ++ b) := by
  induction l with
  | nil => simp [asinScan] at h
  | cons x rest ih =>
    rw [asinScan] at h
    cases hm : headMatch (x :: rest) with
    | true =>
      obtain ⟨c0, t, heq, hc0⟩ := (headMatch_iff _).mp hm
      injection heq with hx hrest
      subst hx; subst hrest
      simp only [hm, if_true, Option.some.injEq] at h
      simp only [List.drop_succ_cons, List.drop_zero] at h
      rw [List.takeWhile_cons, hc0] at h
      simp only [if_true] at h
      subst h
      refine ⟨by simp, ?_, [], t.dropWhile isUpAl, ?_⟩
      · rw [List.all_eq_true]
        intro u hu
        rcases List.mem_cons.mp hu with h1 | h1
        · rw [h1]; exact hc0
        · exact List.mem_takeWhile_imp h1
      · simp [List.takeWhile_append_dropWhile]
    | false =>
      rw [hm] at h
      simp only [Bool.false_eq_true, if_false] at h
      obtain ⟨hne, hall, a, b, hdec⟩ := ih h
      exact ⟨hne, hall, x :: a, b, by rw [hdec]; rfl⟩

/-- Completeness of the ASIN scanner: whenever `/dp/` followed by an
uppercase alphanumeric character occurs somewhere in the text, the scan
succeeds. -/
theorem asinScan_isSome_of (l : List Char) :
    ∀ (a : List Char) (c : Char) (t : List Char),
      l = a ++ '/' :: 'd' :: 'p' :: '/' :: c :: t → isUpAl c = true →
      (asinScan l).isSome = true := by
  induction l with
  | nil =>
    intro a c t hdec _
    exact absurd hdec (by cases a <;> simp)
  | cons x rest ih =>
    intro a c t hdec hc
    rw [asinScan]
    cases hm : headMatch (x :: rest) with
    | true => simp
    | false =>
      simp only [Bool.false_eq_true, if_false]
      cases a with
      | nil =>
        exfalso
        have hmt : headMatch (x :: rest) = true :=
          (headMatch_iff _).mpr ⟨c, t, by simpa using hdec, hc⟩
        rw [hm] at hmt
        exact absurd hmt (by decide)
      | cons a0 a' =>
        simp only [List.cons_append, List.cons.injEq] at hdec
        exact ih a' c t hdec.2 hc

/-- The ASIN scan succeeds exactly when `/dp/` immediately followed by an
uppercase alphanumeric character occurs in the text. -/
theorem asinScan_isSome_iff (l : List Char) :
    (asinScan l).isSome = true ↔
      ∃ a c t, l = a ++ '/' :: 'd' :: 'p' :: '/' :: c :: t ∧ isUpAl c = true := by
  constructor
  · intro h
    cases hs : asinScan l with
    | none => rw [hs] at h; simp at h
    | some r =>
      obtain ⟨hne, hall, a, b, hdec⟩ := asinScan_eq_some l r hs
      cases r with
      | nil => exact absurd rfl hne
      | cons rc rt =>
        refine ⟨a, rc, rt ++ b, by rw [hdec]; rfl, ?_⟩
        rw [List.all_eq_true] at hall
        exact hall rc (by simp)
  · rintro ⟨a, c, t, hdec, hc⟩
    exact asinScan_isSome_of l a c t hdec hc

/-- C5, counterexample: the URL `https://a/dp/b1` contains the path segment
`/dp/b1` with `b1` a (lowercase) alphanumeric run, yet the extractor's
`catalogId` is `None` — the regular expression only accepts `[A-Z0-9]`. -/
theorem C5_counterexample :
    specHasDpRunB "https://a/dp/b1" "b1" = true ∧
    asinOf "https://a/dp/b1" = none ∧
    asinOf "https://a/dp/b1" ≠ some "b1" := by decide

/-- C5, amended: `catalogId` is computed by searching the whole URL string
for `/dp/` immediately followed by an UPPERCASE-alphanumeric run
(`[A-Z0-9]+`, not the full alphanumeric class): whenever it is a value it is
a non-empty uppercase-alphanumeric run occurring right after `/dp/` in the
URL, and it is a value exactly when such an occurrence exists (so lowercase
runs yield `None`). -/
theorem C5_catalog_id_uppercase (url : String) :
    (∀ r : String, asinOf url = some r →
      r.data ≠ [] ∧ r.data.all isUpAl = true ∧
      ∃ a b, url.data = a ++ '/' :: 'd' :: 'p' :: '/' :: (r.data ++ b)) ∧
    ((asinOf url).isSome = true ↔
      ∃ a c t, url.data = a ++ '/' :: 'd' :: 'p' :: '/' :: c :: t ∧ isUpAl c = true) := by
  constructor
  · intro r hr
    simp only [asinOf, Option.map_eq_some'] at hr
    obtain ⟨rl, hscan, hmk⟩ := hr
    have hdata : r.data = rl := by rw [← hmk]
    obtain ⟨hne, hall, a, b, hdec⟩ := asinScan_eq_some url.data rl hscan
    exact ⟨by rw [hdata]; exact hne, by rw [hdata]; exact hall, a, b,
      by rw [hdata]; exact hdec⟩
  · rw [asinOf, Option.isSome_map']
    exact asinScan_isSome_iff url.data

/-- C5 amended, witness: for the URL `x/dp/AB`, the extracted `catalogId`
`"AB"` is a non-empty uppercase run occurring right after `/dp/`. -/
theorem C5_catalog_id_uppercase_witness :
    ("AB" : String).data ≠ [] ∧ ("AB" : String).data.all isUpAl = true ∧
    ∃ a b, ("x/dp/AB" : String).data =
      a ++ '/' :: 'd' :: 'p' :: '/' :: (("AB" : String).data ++ b) :=
  (C5_catalog_id_uppercase "x/dp/AB").1 "AB" (by decide)
